import Mathlib

/-!
Verification of the chat-session controller and incident store of the
bleu-esprit-dialogue front-end.

JavaScript strings are modelled as lists of characters (`Str`).  The global
regex replace of `%%PARTIE%%` by the empty string and the split
`s.split(/\n\nSi tu veux plus d\x27informations/)` are modelled by
`stripOcc` and `splitOnSub`, which scan left to right and consume
non-overlapping matches exactly as the JavaScript engine does (matches are
located in the original string, with no rescan of the spliced result).

The React component `ChatInterface` (file `ChatInterface.tsx`) is modelled as
a pure function `handleSendMessage` from the user input, the outcome of the
backend call and a stream of random draws, to the list of state-mutating
events the handler performs, in the order it performs them.  `runEvents`
replays such a trace against a `ChatState`.  DOM-only actions
(`scrollToBottom`, the `onFirstMessage` callback) are omitted: they touch no
modelled state.
-/

abbrev Str := List Char

/-- Scanner for `stripOcc`, structurally recursive on a fuel argument so
that it evaluates inside the kernel; every step consumes at least one
character, so fuel equal to the string length never runs out. -/
def stripOccAux (pat : Str) : ℕ → Str → Str
  | _, [] => []
  | 0, s => s
  | fuel + 1, c :: rest =>
    if pat.isPrefixOf (c :: rest) && !pat.isEmpty then
      stripOccAux pat fuel (List.drop (pat.length - 1) rest)
    else
      c :: stripOccAux pat fuel rest

/-- Model of the JavaScript global-regex replacement of a literal pattern by
the empty string: scan left to right, consume each non-overlapping match of
`pat`, keep every other character.  The spliced result is not rescanned. -/
def stripOcc (pat s : Str) : Str := stripOccAux pat s.length s

/-- Scanner for `splitOnSub`, fuelled like `stripOccAux`. -/
def splitOnSubAux (pat : Str) : ℕ → Str → List Str
  | _, [] => [[]]
  | 0, s => [s]
  | fuel + 1, c :: rest =>
    if pat.isPrefixOf (c :: rest) && !pat.isEmpty then
      [] :: splitOnSubAux pat fuel (List.drop (pat.length - 1) rest)
    else
      match splitOnSubAux pat fuel rest with
      | [] => [[c]]
      | seg :: segs => (c :: seg) :: segs

/-- Model of the JavaScript `String.prototype.split` on a literal pattern:
the segments between the left-to-right non-overlapping matches of `pat`. -/
def splitOnSub (pat s : Str) : List Str := splitOnSubAux pat s.length s

/-- Model of the JavaScript `String.prototype.includes`: does `pat` occur as
a contiguous substring? -/
def containsSub (pat : Str) : Str → Bool
  | [] => pat.isEmpty
  | c :: rest => pat.isPrefixOf (c :: rest) || containsSub pat rest

/-- The literal delimiter filtered from every displayed bot message. -/
def delim : Str := "%%PARTIE%%".data

/-- The marker on which the single-answer branch splits off the documents
part: the regex `\n\nSi tu veux plus d\x27informations`. -/
def docMarker : Str := "\n\nSi tu veux plus d\x27informations".data

/-- The fixed text prepended to the documents message. -/
def docMarkerHead : Str := "Si tu veux plus d\x27informations".data

inductive Role where
  | user
  | assistant
deriving DecidableEq, Repr

/-- The fields of `ChatMessageProps` that the controller logic manipulates.
`message_id` is the optional backend id, `isLoading` marks transient
indicator messages and `isLastInSequence` is the optional flag set by the
multi-part branch (absent, i.e. `none`, everywhere else). -/
structure ChatMessageProps where
  role : Role
  content : Str
  message_id : Option Int
  isLoading : Bool
  isLastInSequence : Option Bool
deriving DecidableEq, Repr

/-- The parsed `/chat` response (`ChatResponse` in `api.ts`). -/
structure ChatResponse where
  answer : Str
  files_used : List Str
  message_parts : List Str
  message_id : Option Int
deriving DecidableEq, Repr

/-- One state mutation performed by `handleSendMessage`, in source order. -/
inductive ChatEvent where
  | appended (m : ChatMessageProps)
  | removedMessage (m : ChatMessageProps)
  | setLoadingMsg (m : Option ChatMessageProps)
  | delay (ms : ℚ)
  | trendingRefresh
  | errorToast
  | setLoadingFlag (b : Bool)
  | focusInput
  | hideTrending
deriving DecidableEq, Repr

/-- The component state touched by `handleSendMessage`. -/
structure ChatState where
  messages : List ChatMessageProps
  loading : Bool
  loadingMessage : Option ChatMessageProps
  showTrending : Bool
  focusRequested : Bool
  trendingRefreshes : Nat
  errorToasts : Nat
deriving DecidableEq, Repr

def runEvent (s : ChatState) : ChatEvent → ChatState
  | ChatEvent.appended m => { s with messages := s.messages ++ [m] }
  | ChatEvent.removedMessage m => { s with messages := s.messages.filter (· ≠ m) }
  | ChatEvent.setLoadingMsg m => { s with loadingMessage := m }
  | ChatEvent.delay _ => s
  | ChatEvent.trendingRefresh => { s with trendingRefreshes := s.trendingRefreshes + 1 }
  | ChatEvent.errorToast => { s with errorToasts := s.errorToasts + 1 }
  | ChatEvent.setLoadingFlag b => { s with loading := b }
  | ChatEvent.focusInput => { s with focusRequested := true }
  | ChatEvent.hideTrending => { s with showTrending := false }

def runEvents (s : ChatState) (events : List ChatEvent) : ChatState :=
  events.foldl runEvent s

/-- The optimistically appended user message. -/
def userMsg (content : Str) : ChatMessageProps :=
  { role := Role.user, content := content, message_id := none,
    isLoading := false, isLastInSequence := none }

/-- The transient loading-indicator message (also reused as the typing
indicator between parts). -/
def loadingIndicatorMsg : ChatMessageProps :=
  { role := Role.assistant, content := [], message_id := none,
    isLoading := true, isLastInSequence := none }

/-- The transient document-search indicator appended by the single-answer
branch. -/
def docsLoadingMsg : ChatMessageProps :=
  { role := Role.assistant, content := "Recherche de documents pertinents...".data,
    message_id := none, isLoading := true, isLastInSequence := none }

/-- The recursive part-appending chain of the multi-part branch
(`addMessageWithDelay` in `ChatInterface.tsx`): append part `index` with the
delimiter stripped and `isLastInSequence` set at the last index; between
consecutive parts show a typing indicator, wait `500 + Math.random() * 500`
milliseconds, and remove the indicator.  `rng index` is the random draw
consumed at step `index`. -/
def addMessageWithDelay (parts : List Str) (mid : Option Int) (rng : ℕ → ℚ)
    (index : ℕ) : List ChatEvent :=
  if h : index < parts.length then
    ChatEvent.appended
      { role := Role.assistant,
        content := stripOcc delim (parts.get ⟨index, h⟩),
        message_id := mid, isLoading := false,
        isLastInSequence := some (decide (index = parts.length - 1)) } ::
    (if index + 1 < parts.length then
      ChatEvent.setLoadingMsg (some loadingIndicatorMsg) ::
      ChatEvent.delay (500 + rng index * 500) ::
      ChatEvent.setLoadingMsg none ::
      addMessageWithDelay parts mid rng (index + 1)
    else [])
  else []
termination_by parts.length - index

/-- The single-answer branch: split the documents tail off the answer, strip
the delimiter from both pieces, append the main answer, and when a documents
tail exists append a transient search indicator, wait 1500 ms, remove it and
append the documents message. -/
def singleBranchEvents (resp : ChatResponse) : List ChatEvent :=
  let initialResponse := stripOcc delim (splitOnSub docMarker resp.answer).headI
  let documentPart :=
    if containsSub docMarker resp.answer then
      docMarkerHead ++ stripOcc delim ((splitOnSub docMarker resp.answer).getD 1 [])
    else []
  ChatEvent.appended
    { role := Role.assistant, content := initialResponse,
      message_id := resp.message_id, isLoading := false,
      isLastInSequence := none } ::
  (if documentPart ≠ [] then
    [ChatEvent.appended docsLoadingMsg,
     ChatEvent.delay 1500,
     ChatEvent.removedMessage docsLoadingMsg,
     ChatEvent.appended
       { role := Role.assistant, content := documentPart, message_id := none,
         isLoading := false, isLastInSequence := none }]
  else [])

/-- The event trace of one `handleSendMessage(content)` invocation, given the
outcome `result` of `sendMessage` and the stream `rng` of random draws. -/
def handleSendMessage (content : Str) (result : Except Str ChatResponse)
    (rng : ℕ → ℚ) : List ChatEvent :=
  ChatEvent.hideTrending ::
  ChatEvent.appended (userMsg content) ::
  ChatEvent.setLoadingFlag true ::
  ChatEvent.setLoadingMsg (some loadingIndicatorMsg) ::
  ((match result with
    | Except.ok resp =>
      ChatEvent.setLoadingMsg none ::
      ((if resp.message_parts.length > 1 then
          addMessageWithDelay resp.message_parts resp.message_id rng 0
        else singleBranchEvents resp)
       ++ [ChatEvent.trendingRefresh])
    | Except.error _ => [ChatEvent.setLoadingMsg none, ChatEvent.errorToast])
   ++ [ChatEvent.setLoadingFlag false, ChatEvent.focusInput])

/-!
Model of the read-oriented API client call `getTrendingQuestions`
(`api.ts`).  The network boundary is modelled by a `FetchOutcome`: either the
transport failed, or a response arrived carrying its HTTP `ok` flag, its
status, its raw body text, and the result of `JSON.parse` on that body
(`none` when the body is not valid JSON).  The parsed value is modelled
directly at the type the caller casts it to.  The Lean function is total:
every failure mode yields a return value, never a propagated exception,
mirroring the try/catch structure of the source.
-/

/-- The `TrendingQuestion` interface of `api.ts`. -/
structure TrendingQuestion where
  question : Str
  count : Int
  source : Option Str
  application : Option Str
deriving DecidableEq, Repr

/-- Outcome of one `fetch` round-trip, with the JSON parse of the body. -/
inductive FetchOutcome (α : Type) where
  | transportError (msg : Str)
  | response (ok : Bool) (status : Nat) (text : Str) (parsed : Option α)
deriving DecidableEq, Repr

/-- `getTrendingQuestions(limit, forceUpdate, source)` of `api.ts`: a non-ok
status throws inside the outer try and is caught (returning `[]`), a JSON
parse error is caught by the inner catch (returning `[]`), a transport error
is caught by the outer catch (returning `[]`); only an ok response with a
valid JSON body returns the parsed data. -/
def getTrendingQuestions (limit : Int) (forceUpdate : Bool) (source : Str)
    (outcome : FetchOutcome (List TrendingQuestion)) : List TrendingQuestion :=
  match outcome with
  | FetchOutcome.transportError _ => []
  | FetchOutcome.response ok _ _ parsed =>
    if ok then
      match parsed with
      | some data => data
      | none => []
    else []

/-- A failure mode of the trending-questions request: transport failure,
non-2xx status, or malformed JSON body. -/
def fetchFailed {α : Type} (outcome : FetchOutcome α) : Bool :=
  match outcome with
  | FetchOutcome.transportError _ => true
  | FetchOutcome.response ok _ _ parsed => !ok || parsed.isNone

/-!
Model of `FeedbackButtons.handleFeedback` (the variant that talks to the
backend).  The `messageId` prop is `number | string`; a string is converted
with `parseInt(s, 10)`, modelled by `jsParseInt`.  The handler returns the
single feedback request it sends, or `none` when it bails out before any
network call.
-/

/-- The `FeedbackData` payload of `api.ts`. -/
structure FeedbackData where
  message_id : Int
  rating : Int
  comment : Str
deriving DecidableEq, Repr

inductive FeedbackKind where
  | positive
  | negative
deriving DecidableEq, Repr

/-- A `number | string` message id as received by the component. -/
inductive MessageIdProp where
  | num (n : Int)
  | str (s : Str)
deriving DecidableEq, Repr

/-- Model of JavaScript `parseInt(s, 10)`: skip leading whitespace, read an
optional sign and the longest prefix of decimal digits; `none` models `NaN`
(no digit found). -/
def jsParseInt (s : Str) : Option Int :=
  let digitsVal : Str → Option Nat := fun t =>
    let ds := t.takeWhile Char.isDigit
    if ds.isEmpty then none
    else some (ds.foldl (fun acc c => acc * 10 + (c.toNat - 48)) 0)
  let t := s.dropWhile (fun c => c = ' ' ∨ c = '\t' ∨ c = '\n' ∨ c = '\r')
  match t with
  | '-' :: rest => (digitsVal rest).map (fun n => -(n : Int))
  | '+' :: rest => (digitsVal rest).map Int.ofNat
  | _ => (digitsVal t).map Int.ofNat

def positiveComment : Str := "Réponse utile".data

def negativeComment : Str := "Réponse non satisfaisante".data

/-- The numeric conversion step of `handleFeedback`. -/
def numericMessageId : MessageIdProp → Option Int
  | MessageIdProp.num n => some n
  | MessageIdProp.str s => jsParseInt s

/-- `handleFeedback(type)` of `FeedbackButtons`: convert the id, bail out
(no network call) when it is `NaN` or negative, otherwise send exactly one
feedback request with rating 5 for positive and 1 for negative. -/
def handleFeedback (messageId : MessageIdProp) (kind : FeedbackKind) :
    Option FeedbackData :=
  match numericMessageId messageId with
  | none => none
  | some n =>
    if n < 0 then none
    else
      some { message_id := n,
             rating := match kind with
               | FeedbackKind.positive => 5
               | FeedbackKind.negative => 1,
             comment := match kind with
               | FeedbackKind.positive => positiveComment
               | FeedbackKind.negative => negativeComment }

/-!
Model of the incident store.  The browser `localStorage` slot under the key
`oskour_app_incidents` is modelled as `Option Json`: `JSON.stringify` before
`setItem` corresponds to storing the JSON tree of the value, `getItem`
followed by `JSON.parse` corresponds to reading it back (`JSON.parse` on a
string produced by `JSON.stringify` always succeeds, so the string step is a
bijection and is elided).

The `AppIncident` interface and the `appIncidents` default list live in
`IncidentStatus.tsx`, which is not part of the provided sources.  Modelled
from the spec: an incident record is
`{applicationId, applicationName, status: ok|incident}` whose icon/display
metadata is "resolved by id lookup against a static default list"; the icon
is accordingly an abstract token (`Icon := ℕ`, standing for a React node) and
the default list is a parameter of every operation that consults it.
-/

inductive Json where
  | jnull
  | jstr (s : Str)
  | jarr (items : List Json)
  | jobj (fields : List (Str × Json))

/-- Abstract display metadata (a React node in the source). -/
abbrev Icon := ℕ

/-- An incident record as held in memory by the views. -/
structure AppIncident where
  id : Str
  name : Str
  status : Str
  icon : Option Icon
deriving DecidableEq, Repr

/-- The `localStorage` slot under `oskour_app_incidents`. -/
abbrev Storage := Option Json

def idKey : Str := "id".data

def nameKey : Str := "name".data

def statusKey : Str := "status".data

def iconTypeKey : Str := "iconType".data

def incidentStatusVal : Str := "incident".data

def jlookup (key : Str) : List (Str × Json) → Option Json
  | [] => none
  | (k, v) :: rest => if k = key then some v else jlookup key rest

def asJstr : Option Json → Option Str
  | some (Json.jstr s) => some s
  | _ => none

/-- The icon the loader resolves for a given application id: the icon of the
matching record of the static default list, or nothing when the id is
unknown (`matchingDefault ? matchingDefault.icon : null`). -/
def defaultIconFor (defaults : List AppIncident) (id : Str) : Option Icon :=
  match defaults.find? (fun d => d.id == id) with
  | some d => d.icon
  | none => none

namespace StorageSer

/-!
The serializing variant of `incidentStorage.ts`: `saveIncidentsToStorage`
stores, for each record, the plain fields `{id, name, status, iconType: id}`
(React nodes cannot be stored), and `loadIncidentsFromStorage` rebuilds each
record, resolving the icon by id lookup against the default list.
-/

/-- The serializable projection of one record built inside `save`. -/
def encodeStoredIncident (x : AppIncident) : Json :=
  Json.jobj [(idKey, Json.jstr x.id), (nameKey, Json.jstr x.name),
             (statusKey, Json.jstr x.status), (iconTypeKey, Json.jstr x.id)]

/-- `saveIncidentsToStorage`: overwrite the slot with the serialized
collection. -/
def saveIncidentsToStorage (incidents : List AppIncident) (_st : Storage) :
    Storage :=
  some (Json.jarr (incidents.map encodeStoredIncident))

/-- The per-item mapping of `load`: read the stored fields back and resolve
the icon from the default list.  A stored item whose fields are missing or
mistyped yields `none` (the source would produce records with undefined
fields there; such trees are unreachable through `save`). -/
def decodeStoredIncident (defaults : List AppIncident) (j : Json) :
    Option AppIncident :=
  match j with
  | Json.jobj fields =>
    match asJstr (jlookup idKey fields), asJstr (jlookup nameKey fields),
          asJstr (jlookup statusKey fields) with
    | some i, some n, some st =>
      some { id := i, name := n, status := st, icon := defaultIconFor defaults i }
    | _, _, _ => none
  | _ => none

/-- `loadIncidentsFromStorage`: return the decoded stored collection, or the
default list when the slot is absent or unreadable. -/
def loadIncidentsFromStorage (defaults : List AppIncident) (st : Storage) :
    List AppIncident :=
  match st with
  | some (Json.jarr items) =>
    match items.mapM (decodeStoredIncident defaults) with
    | some xs => xs
    | none => defaults
  | some _ => defaults
  | none => defaults

/-- `initializeIncidentStorage`: seed the slot with the default list exactly
when nothing is stored yet. -/
def initializeIncidentStorage (defaults : List AppIncident) (st : Storage) :
    Storage :=
  match st with
  | none => saveIncidentsToStorage defaults st
  | some _ => st

end StorageSer

namespace StoragePlain

/-!
The plain variant of `src/utils/incidentStorage.ts`: `save` stringifies the
records as they are and `load` returns the parse result unchanged.  A record
whose in-memory `icon` metadata is present does not survive
`JSON.stringify` (a React node degenerates to a plain object), which the
encoder records as an unfaithful `jnull` placeholder; the round-trip
property is accordingly stated for collections without in-memory icon
metadata, matching the record shape of the spec. -/

def encodeIncident (x : AppIncident) : Json :=
  Json.jobj ([(idKey, Json.jstr x.id), (nameKey, Json.jstr x.name),
              (statusKey, Json.jstr x.status)] ++
             (match x.icon with
              | some _ => [("icon".data, Json.jnull)]
              | none => []))

def saveIncidentsToStorage (incidents : List AppIncident) (_st : Storage) :
    Storage :=
  some (Json.jarr (incidents.map encodeIncident))

def decodeIncident (j : Json) : Option AppIncident :=
  match j with
  | Json.jobj fields =>
    match asJstr (jlookup idKey fields), asJstr (jlookup nameKey fields),
          asJstr (jlookup statusKey fields) with
    | some i, some n, some st =>
      some { id := i, name := n, status := st, icon := none }
    | _, _, _ => none
  | _ => none

def loadIncidentsFromStorage (defaults : List AppIncident) (st : Storage) :
    List AppIncident :=
  match st with
  | some (Json.jarr items) =>
    match items.mapM decodeIncident with
    | some xs => xs
    | none => defaults
  | some _ => defaults
  | none => defaults

def initializeIncidentStorage (defaults : List AppIncident) (st : Storage) :
    Storage :=
  match st with
  | none => saveIncidentsToStorage defaults st
  | some _ => st

end StoragePlain

/-!
Cross-view propagation (claim C7): in the admin view,
`handleIncidentStatusChange` saves the updated collection and dispatches an
`incident-update` event; an `IncidentTicker` mounted without an `incidents`
prop reacts to that event (or a `storage` event) by reloading from storage.
The world below holds the shared storage slot, the in-memory collections
of both views, and the count of dispatched but not yet handled notifications.
-/

structure IncidentWorld where
  storage : Storage
  adminIncidents : List AppIncident
  tickerIncidents : List AppIncident
  pendingNotifications : Nat

/-- `handleIncidentStatusChange(updatedIncidents)` of the admin view:
update the admin state, persist the full collection, dispatch the
`incident-update` event. -/
def handleIncidentStatusChange (w : IncidentWorld)
    (updatedIncidents : List AppIncident) : IncidentWorld :=
  { w with adminIncidents := updatedIncidents,
           storage := StorageSer.saveIncidentsToStorage updatedIncidents w.storage,
           pendingNotifications := w.pendingNotifications + 1 }

/-- The `handleStorageChange` listener of the ticker (mounted without an
`incidents` prop): reload the collection from storage. -/
def tickerOnIncidentUpdate (defaults : List AppIncident) (w : IncidentWorld) :
    IncidentWorld :=
  { w with tickerIncidents := StorageSer.loadIncidentsFromStorage defaults w.storage,
           pendingNotifications := w.pendingNotifications - 1 }

/-- The display filter of the ticker: only records with status `incident`. -/
def activeIncidents (incidents : List AppIncident) : List AppIncident :=
  incidents.filter (fun i => i.status == incidentStatusVal)

/-!
Model of `handleNewChat` in the `Index` page together with
`clearConversation` / `SESSION_ID` of `api.ts`.  `SESSION_ID` is a
module-level constant generated once per page load; nothing in the source
ever reassigns it.  On success `handleNewChat` bumps `chatKey`, which
remounts `ChatInterface` and thereby resets its message list to `[]`; on
failure (`clearConversation` rejects) only an error toast is shown and
neither happens.
-/

structure IndexPageState where
  sessionId : Str
  chatKey : Nat
  isAnimated : Bool
  chatMessages : List ChatMessageProps
  successToasts : Nat
  errorToasts : Nat
deriving DecidableEq, Repr

def handleNewChat (s : IndexPageState) (clearResult : Except Str Unit) :
    IndexPageState :=
  match clearResult with
  | Except.ok _ =>
    { s with isAnimated := false, chatKey := s.chatKey + 1,
             chatMessages := [], successToasts := s.successToasts + 1 }
  | Except.error _ => { s with errorToasts := s.errorToasts + 1 }

/-!
Helper lemmas about traces and their replay.
-/

lemma runEvents_append (s : ChatState) (a b : List ChatEvent) :
    runEvents s (a ++ b) = runEvents (runEvents s a) b := by
  simp [runEvents, List.foldl_append]

lemma runEvents_cons (s : ChatState) (e : ChatEvent) (rest : List ChatEvent) :
    runEvents s (e :: rest) = runEvents (runEvent s e) rest := rfl

/-- The message the multi-part branch builds for part `i`. -/
def expectedPartMessage (parts : List Str) (mid : Option Int) (i : ℕ) :
    ChatMessageProps :=
  { role := Role.assistant, content := stripOcc delim (parts.getD i []),
    message_id := mid, isLoading := false,
    isLastInSequence := some (decide (i = parts.length - 1)) }

/-- The messages appended by the part chain from index `i` on. -/
def partMsgsFrom (parts : List Str) (mid : Option Int) (i : ℕ) :
    List ChatMessageProps :=
  if i < parts.length then
    expectedPartMessage parts mid i :: partMsgsFrom parts mid (i + 1)
  else []
termination_by parts.length - i

lemma partMsgsFrom_pos (parts : List Str) (mid : Option Int) (i : ℕ)
    (h : i < parts.length) :
    partMsgsFrom parts mid i =
      expectedPartMessage parts mid i :: partMsgsFrom parts mid (i + 1) := by
  rw [partMsgsFrom.eq_def, if_pos h]

lemma partMsgsFrom_neg (parts : List Str) (mid : Option Int) (i : ℕ)
    (h : ¬ i < parts.length) :
    partMsgsFrom parts mid i = [] := by
  rw [partMsgsFrom.eq_def, if_neg h]

/-- Replaying the part chain appends exactly the expected part messages and
otherwise only clears the typing indicator (when at least two parts
remain). -/
lemma addMessageWithDelay_run (parts : List Str) (mid : Option Int)
    (rng : ℕ → ℚ) :
    ∀ (k i : ℕ) (s : ChatState), parts.length - i ≤ k →
    runEvents s (addMessageWithDelay parts mid rng i) =
      { s with messages := s.messages ++ partMsgsFrom parts mid i,
               loadingMessage :=
                 if i + 1 < parts.length then none else s.loadingMessage } := by
  intro k
  induction k with
  | zero =>
    intro i s hk
    have hi : ¬ i < parts.length := by omega
    have hi1 : ¬ i + 1 < parts.length := by omega
    rw [addMessageWithDelay.eq_def, partMsgsFrom_neg parts mid i hi]
    simp [hi, hi1, runEvents]
  | succ k ih =>
    intro i s hk
    by_cases hi : i < parts.length
    · rw [addMessageWithDelay.eq_def, dif_pos hi,
        partMsgsFrom_pos parts mid i hi]
      by_cases hnext : i + 1 < parts.length
      · rw [if_pos hnext]
        rw [runEvents_cons, runEvents_cons, runEvents_cons, runEvents_cons]
        rw [ih (i + 1) _ (by omega)]
        simp [runEvent, expectedPartMessage, List.getElem?_eq_getElem hi,
          if_pos hnext]
      · rw [if_neg hnext]
        rw [runEvents_cons]
        rw [partMsgsFrom_neg parts mid (i + 1) hnext]
        simp [runEvents, runEvent, expectedPartMessage,
          List.getElem?_eq_getElem hi, if_neg hnext]
    · have hi1 : ¬ i + 1 < parts.length := by omega
      rw [addMessageWithDelay.eq_def, partMsgsFrom_neg parts mid i hi]
      simp [hi, hi1, runEvents]

/-- The events visible to the user in the multi-part exchange: appended
non-transient assistant messages and waits. -/
def isPartEvent : ChatEvent → Bool
  | ChatEvent.appended m => m.role == Role.assistant && !m.isLoading
  | ChatEvent.delay _ => true
  | _ => false

/-- The sequencing the spec describes for the multi-part branch, from part
`i` on: each part appended in order, with one randomized wait strictly
between consecutive parts. -/
def expectedPartsTrace (parts : List Str) (mid : Option Int) (rng : ℕ → ℚ)
    (i : ℕ) : List ChatEvent :=
  if i < parts.length then
    ChatEvent.appended (expectedPartMessage parts mid i) ::
    (if i + 1 < parts.length then
      ChatEvent.delay (500 + rng i * 500) :: expectedPartsTrace parts mid rng (i + 1)
    else [])
  else []
termination_by parts.length - i

/-- The part chain performs exactly the interleaving of appends and
waits (transient indicator updates filtered out). -/
lemma addMessageWithDelay_filter (parts : List Str) (mid : Option Int)
    (rng : ℕ → ℚ) :
    ∀ (k i : ℕ), parts.length - i ≤ k →
    (addMessageWithDelay parts mid rng i).filter isPartEvent =
      expectedPartsTrace parts mid rng i := by
  intro k
  induction k with
  | zero =>
    intro i hk
    have hi : ¬ i < parts.length := by omega
    rw [addMessageWithDelay.eq_def, expectedPartsTrace.eq_def]
    simp [hi]
  | succ k ih =>
    intro i hk
    by_cases hi : i < parts.length
    · rw [addMessageWithDelay.eq_def, dif_pos hi, expectedPartsTrace.eq_def,
        if_pos hi]
      by_cases hnext : i + 1 < parts.length
      · rw [if_pos hnext, if_pos hnext]
        rw [List.filter_cons, List.filter_cons, List.filter_cons,
          List.filter_cons]
        rw [ih (i + 1) (by omega)]
        simp [isPartEvent, expectedPartMessage, List.getElem?_eq_getElem hi]
      · rw [if_neg hnext, if_neg hnext]
        simp [isPartEvent, expectedPartMessage, List.getElem?_eq_getElem hi]
    · have := hk
      rw [addMessageWithDelay.eq_def, expectedPartsTrace.eq_def]
      simp [hi]

/-- Every wait of the part chain is a randomized draw `500 + rng j * 500`. -/
lemma addMessageWithDelay_delay_mem (parts : List Str) (mid : Option Int)
    (rng : ℕ → ℚ) :
    ∀ (k i : ℕ) (d : ℚ), parts.length - i ≤ k →
    ChatEvent.delay d ∈ addMessageWithDelay parts mid rng i →
    ∃ j, d = 500 + rng j * 500 := by
  intro k
  induction k with
  | zero =>
    intro i d hk hmem
    have hi : ¬ i < parts.length := by omega
    rw [addMessageWithDelay.eq_def] at hmem
    simp [hi] at hmem
  | succ k ih =>
    intro i d hk hmem
    by_cases hi : i < parts.length
    · rw [addMessageWithDelay.eq_def, dif_pos hi] at hmem
      by_cases hnext : i + 1 < parts.length
      · rw [if_pos hnext] at hmem
        simp only [List.mem_cons] at hmem
        rcases hmem with h | h | h | h | h
        · cases h
        · cases h
        · exact ⟨i, by cases h; rfl⟩
        · cases h
        · exact ih (i + 1) d (by omega) h
      · rw [if_neg hnext] at hmem
        simp only [List.mem_cons, List.not_mem_nil, or_false] at hmem
        cases hmem
    · rw [addMessageWithDelay.eq_def] at hmem
      simp [hi] at hmem

/-- The contents of the non-transient assistant messages a trace appends. -/
def appendedAssistantContents (events : List ChatEvent) : List Str :=
  events.filterMap (fun e =>
    match e with
    | ChatEvent.appended m =>
      if m.role == Role.assistant && !m.isLoading then some m.content else none
    | _ => none)

/-- The part chain appends exactly the delimiter-stripped parts. -/
lemma addMessageWithDelay_contents (parts : List Str) (mid : Option Int)
    (rng : ℕ → ℚ) :
    ∀ (k i : ℕ), parts.length - i ≤ k →
    appendedAssistantContents (addMessageWithDelay parts mid rng i) =
      (parts.drop i).map (stripOcc delim) := by
  intro k
  induction k with
  | zero =>
    intro i hk
    have hi : ¬ i < parts.length := by omega
    have hdrop : parts.drop i = [] := List.drop_eq_nil_of_le (by omega)
    rw [addMessageWithDelay.eq_def]
    simp [hi, hdrop, appendedAssistantContents]
  | succ k ih =>
    intro i hk
    by_cases hi : i < parts.length
    · have hdrop : parts.drop i = parts[i] :: parts.drop (i + 1) :=
        List.drop_eq_getElem_cons hi
      rw [addMessageWithDelay.eq_def, dif_pos hi, hdrop]
      by_cases hnext : i + 1 < parts.length
      · rw [if_pos hnext]
        simp only [appendedAssistantContents, List.filterMap_cons] at ih ⊢
        rw [ih (i + 1) (by omega)]
        have hlen : i < (List.map (stripOcc delim) parts).length := by
          simpa using hi
        simp [List.drop_eq_getElem_cons hlen]
      · have hdrop1 : parts.drop (i + 1) = [] := List.drop_eq_nil_of_le (by omega)
        rw [if_neg hnext, hdrop1]
        simp [appendedAssistantContents]
    · have hdrop : parts.drop i = [] := List.drop_eq_nil_of_le (by omega)
      rw [addMessageWithDelay.eq_def]
      simp [hi, hdrop, appendedAssistantContents]

lemma docMarkerHead_ne_nil : docMarkerHead ≠ [] := by decide

/-- The single-answer branch neither touches the loading flag, the loading
message, the focus, nor the trending counter. -/
lemma singleBranchEvents_run (s : ChatState) (resp : ChatResponse) :
    (runEvents s (singleBranchEvents resp)).loadingMessage = s.loadingMessage ∧
    (runEvents s (singleBranchEvents resp)).loading = s.loading ∧
    (runEvents s (singleBranchEvents resp)).focusRequested = s.focusRequested ∧
    (runEvents s (singleBranchEvents resp)).trendingRefreshes =
      s.trendingRefreshes := by
  by_cases hc : containsSub docMarker resp.answer
  · simp [singleBranchEvents, hc, docMarkerHead_ne_nil, runEvents, runEvent]
  · simp [singleBranchEvents, hc, runEvents, runEvent]

/-- The single-answer branch appends, as non-transient assistant content,
exactly the stripped main answer followed by the documents message when the
marker occurs in the answer. -/
lemma singleBranchEvents_contents (resp : ChatResponse) :
    appendedAssistantContents (singleBranchEvents resp) =
      stripOcc delim (splitOnSub docMarker resp.answer).headI ::
      (if containsSub docMarker resp.answer then
        [docMarkerHead ++ stripOcc delim ((splitOnSub docMarker resp.answer).getD 1 [])]
      else []) := by
  by_cases hc : containsSub docMarker resp.answer
  · simp [singleBranchEvents, hc, docMarkerHead_ne_nil,
      appendedAssistantContents, docsLoadingMsg]
  · simp [singleBranchEvents, hc, appendedAssistantContents]

/-- Failure path of `handleSendMessage`: the loading indicator is removed,
the loading flag cleared, focus requested, an error toast shown, and the
history gains exactly the optimistic user message. -/
lemma handleSendMessage_run_error (s : ChatState) (content : Str) (e : Str)
    (rng : ℕ → ℚ) :
    runEvents s (handleSendMessage content (Except.error e) rng) =
      { s with messages := s.messages ++ [userMsg content], loading := false,
               loadingMessage := none, showTrending := false,
               focusRequested := true, errorToasts := s.errorToasts + 1 } := by
  simp [handleSendMessage, runEvents, runEvent]

/-- Success path of `handleSendMessage`: the loading indicator is removed,
the loading flag cleared, focus requested, and exactly one trending refresh
triggered, in both the multi-part and the single-answer branch. -/
lemma handleSendMessage_run_ok (s : ChatState) (content : Str)
    (resp : ChatResponse) (rng : ℕ → ℚ) :
    (runEvents s (handleSendMessage content (Except.ok resp) rng)).loadingMessage
        = none ∧
    (runEvents s (handleSendMessage content (Except.ok resp) rng)).loading
        = false ∧
    (runEvents s (handleSendMessage content (Except.ok resp) rng)).focusRequested
        = true ∧
    (runEvents s (handleSendMessage content (Except.ok resp) rng)).trendingRefreshes
        = s.trendingRefreshes + 1 := by
  have hmain : ∀ s' : ChatState, s'.loadingMessage = none →
      (runEvents s' (if resp.message_parts.length > 1 then
          addMessageWithDelay resp.message_parts resp.message_id rng 0
        else singleBranchEvents resp)).loadingMessage = none ∧
      (runEvents s' (if resp.message_parts.length > 1 then
          addMessageWithDelay resp.message_parts resp.message_id rng 0
        else singleBranchEvents resp)).loading = s'.loading ∧
      (runEvents s' (if resp.message_parts.length > 1 then
          addMessageWithDelay resp.message_parts resp.message_id rng 0
        else singleBranchEvents resp)).focusRequested = s'.focusRequested ∧
      (runEvents s' (if resp.message_parts.length > 1 then
          addMessageWithDelay resp.message_parts resp.message_id rng 0
        else singleBranchEvents resp)).trendingRefreshes
        = s'.trendingRefreshes := by
    intro s' h'
    by_cases hp : resp.message_parts.length > 1
    · rw [if_pos hp,
        addMessageWithDelay_run resp.message_parts resp.message_id rng
          resp.message_parts.length 0 s' (by omega)]
      refine ⟨?_, rfl, rfl, rfl⟩
      by_cases h01 : 0 + 1 < resp.message_parts.length
      · simp [h01]
      · simp [h01, h']
    · rw [if_neg hp]
      obtain ⟨h1, h2, h3, h4⟩ := singleBranchEvents_run s' resp
      exact ⟨h1.trans h', h2, h3, h4⟩
  have hshape :
      handleSendMessage content (Except.ok resp) rng =
        (ChatEvent.hideTrending ::
         ChatEvent.appended (userMsg content) ::
         ChatEvent.setLoadingFlag true ::
         ChatEvent.setLoadingMsg (some loadingIndicatorMsg) ::
         ChatEvent.setLoadingMsg none :: []) ++
        ((if resp.message_parts.length > 1 then
            addMessageWithDelay resp.message_parts resp.message_id rng 0
          else singleBranchEvents resp) ++
         ([ChatEvent.trendingRefresh] ++
          [ChatEvent.setLoadingFlag false, ChatEvent.focusInput])) := by
    simp [handleSendMessage]
  have hpre : runEvents s
      (ChatEvent.hideTrending ::
       ChatEvent.appended (userMsg content) ::
       ChatEvent.setLoadingFlag true ::
       ChatEvent.setLoadingMsg (some loadingIndicatorMsg) ::
       ChatEvent.setLoadingMsg none :: []) =
      { s with messages := s.messages ++ [userMsg content], loading := true,
               loadingMessage := none, showTrending := false } := rfl
  have htr : ∀ x : ChatState, runEvents x [ChatEvent.trendingRefresh] =
      { x with trendingRefreshes := x.trendingRefreshes + 1 } := fun _ => rfl
  have hsuf : ∀ x : ChatState,
      runEvents x [ChatEvent.setLoadingFlag false, ChatEvent.focusInput] =
      { x with loading := false, focusRequested := true } := fun _ => rfl
  rw [hshape, runEvents_append, runEvents_append, runEvents_append, hpre]
  obtain ⟨hb1, hb2, hb3, hb4⟩ :=
    hmain { s with messages := s.messages ++ [userMsg content], loading := true,
                   loadingMessage := none, showTrending := false } rfl
  rw [htr, hsuf]
  exact ⟨hb1, rfl, rfl, by simp [hb4]⟩

/-- The messages appended by the part chain, enumerated: part `i` maps to
`expectedPartMessage i`. -/
lemma partMsgsFrom_eq_range (parts : List Str) (mid : Option Int) :
    ∀ (k i : ℕ), parts.length - i ≤ k →
    partMsgsFrom parts mid i =
      (List.range' i (parts.length - i)).map (expectedPartMessage parts mid) := by
  intro k
  induction k with
  | zero =>
    intro i hk
    have hi : ¬ i < parts.length := by omega
    have hz : parts.length - i = 0 := by omega
    rw [partMsgsFrom_neg parts mid i hi, hz]
    rfl
  | succ k ih =>
    intro i hk
    by_cases hi : i < parts.length
    · have hstep : parts.length - i = (parts.length - (i + 1)) + 1 := by omega
      rw [partMsgsFrom_pos parts mid i hi, ih (i + 1) (by omega), hstep,
        List.range'_succ]
      rfl
    · have hz : parts.length - i = 0 := by omega
      rw [partMsgsFrom_neg parts mid i hi, hz]
      rfl

/-- Every message the part chain appends is a real (non-transient) assistant
message. -/
lemma addMessageWithDelay_appended_mem (parts : List Str) (mid : Option Int)
    (rng : ℕ → ℚ) :
    ∀ (k i : ℕ) (m : ChatMessageProps), parts.length - i ≤ k →
    ChatEvent.appended m ∈ addMessageWithDelay parts mid rng i →
    m.isLoading = false ∧ m.role = Role.assistant := by
  intro k
  induction k with
  | zero =>
    intro i m hk hmem
    have hi : ¬ i < parts.length := by omega
    rw [addMessageWithDelay.eq_def] at hmem
    simp [hi] at hmem
  | succ k ih =>
    intro i m hk hmem
    by_cases hi : i < parts.length
    · rw [addMessageWithDelay.eq_def, dif_pos hi] at hmem
      by_cases hnext : i + 1 < parts.length
      · rw [if_pos hnext] at hmem
        simp only [List.mem_cons] at hmem
        rcases hmem with h | h | h | h | h
        · cases h; exact ⟨rfl, rfl⟩
        · cases h
        · cases h
        · cases h
        · exact ih (i + 1) m (by omega) h
      · rw [if_neg hnext] at hmem
        simp only [List.mem_cons, List.not_mem_nil, or_false] at hmem
        cases hmem; exact ⟨rfl, rfl⟩
    · rw [addMessageWithDelay.eq_def] at hmem
      simp [hi] at hmem

/-- The decomposition of the success trace into its five phases. -/
lemma handleSendMessage_ok_shape (content : Str) (resp : ChatResponse)
    (rng : ℕ → ℚ) :
    handleSendMessage content (Except.ok resp) rng =
      (ChatEvent.hideTrending ::
       ChatEvent.appended (userMsg content) ::
       ChatEvent.setLoadingFlag true ::
       ChatEvent.setLoadingMsg (some loadingIndicatorMsg) ::
       ChatEvent.setLoadingMsg none :: []) ++
      ((if resp.message_parts.length > 1 then
          addMessageWithDelay resp.message_parts resp.message_id rng 0
        else singleBranchEvents resp) ++
       ([ChatEvent.trendingRefresh] ++
        [ChatEvent.setLoadingFlag false, ChatEvent.focusInput])) := by
  simp [handleSendMessage]

/-- On a multi-part response the history gains the user message followed by
the stripped parts, in order. -/
lemma handleSendMessage_multi_messages (s : ChatState) (content : Str)
    (resp : ChatResponse) (rng : ℕ → ℚ)
    (hp : 1 < resp.message_parts.length) :
    (runEvents s (handleSendMessage content (Except.ok resp) rng)).messages =
      s.messages ++ userMsg content ::
        partMsgsFrom resp.message_parts resp.message_id 0 := by
  have hgt : resp.message_parts.length > 1 := hp
  rw [handleSendMessage_ok_shape, runEvents_append, runEvents_append,
    runEvents_append]
  have hpre : runEvents s
      (ChatEvent.hideTrending ::
       ChatEvent.appended (userMsg content) ::
       ChatEvent.setLoadingFlag true ::
       ChatEvent.setLoadingMsg (some loadingIndicatorMsg) ::
       ChatEvent.setLoadingMsg none :: []) =
      { s with messages := s.messages ++ [userMsg content], loading := true,
               loadingMessage := none, showTrending := false } := rfl
  rw [hpre, if_pos hgt,
    addMessageWithDelay_run resp.message_parts resp.message_id rng
      resp.message_parts.length 0 _ (by omega)]
  simp [runEvents, runEvent]

/-!
Claim theorems.
-/

/-- A reference initial chat state for concrete instantiations. -/
def chatState0 : ChatState :=
  { messages := [], loading := false, loadingMessage := none,
    showTrending := true, focusRequested := false, trendingRefreshes := 0,
    errorToasts := 0 }

/-- C4, counterexample: with one message in the history, a failing
`clearConversation` leaves the history non-empty, and even a successful one
leaves the session identifier unchanged (it is a per-page-load constant), so
the claimed behaviour fails on both counts. -/
theorem newChat_failure_counterexample :
    (handleNewChat
      { sessionId := "session-initiale".data, chatKey := 0, isAnimated := true,
        chatMessages := [userMsg ("Bonjour".data)], successToasts := 0,
        errorToasts := 0 }
      (Except.error ("panne".data))).chatMessages ≠ [] ∧
    (handleNewChat
      { sessionId := "session-initiale".data, chatKey := 0, isAnimated := true,
        chatMessages := [userMsg ("Bonjour".data)], successToasts := 0,
        errorToasts := 0 }
      (Except.ok ())).sessionId = "session-initiale".data := by
  constructor
  · simp [handleNewChat]
  · rfl

/-- C4, amended: on success `handleNewChat` remounts the chat (the key is
bumped and the history becomes empty) but the session identifier, fixed per
page load, is never reissued; on failure only an error toast is added and
neither the history nor anything else changes. -/
theorem newChat_behavior (s : IndexPageState) (e : Str) :
    (handleNewChat s (Except.ok ())).chatMessages = [] ∧
    (handleNewChat s (Except.ok ())).chatKey = s.chatKey + 1 ∧
    (handleNewChat s (Except.ok ())).sessionId = s.sessionId ∧
    (handleNewChat s (Except.error e)).chatMessages = s.chatMessages ∧
    (handleNewChat s (Except.error e)).chatKey = s.chatKey ∧
    (handleNewChat s (Except.error e)).sessionId = s.sessionId ∧
    (handleNewChat s (Except.error e)).errorToasts = s.errorToasts + 1 :=
  ⟨rfl, rfl, rfl, rfl, rfl, rfl, rfl⟩

/-- C5: for every argument triple and every failure mode of the request
(transport failure, non-2xx status, or malformed JSON body),
`getTrendingQuestions` returns the empty sequence; being a total function,
it propagates no exception. -/
theorem trending_empty_on_failure (limit : Int) (forceUpdate : Bool)
    (source : Str) (outcome : FetchOutcome (List TrendingQuestion))
    (h : fetchFailed outcome = true) :
    getTrendingQuestions limit forceUpdate source outcome = [] := by
  cases outcome with
  | transportError m => rfl
  | response ok status text parsed =>
    simp [fetchFailed] at h
    cases ok with
    | false => rfl
    | true =>
      simp at h
      rw [h]
      rfl

/-- C5, witness: a 500 response yields the empty sequence. -/
theorem trending_empty_on_failure_witness :
    fetchFailed (FetchOutcome.response false 500 [] (none : Option (List TrendingQuestion))) = true ∧
    getTrendingQuestions 3 false ("user".data)
      (FetchOutcome.response false 500 [] none) = [] :=
  ⟨rfl, trending_empty_on_failure 3 false ("user".data) _ rfl⟩

/-- C8: feedback with an id that converts to `NaN` or to a negative number
is dropped before any network call; a valid id produces exactly one request
rated 5 for positive and 1 for negative feedback. -/
theorem feedback_validation (messageId : MessageIdProp) (kind : FeedbackKind) :
    ((numericMessageId messageId = none ∨
      ∃ n, numericMessageId messageId = some n ∧ n < 0) →
      handleFeedback messageId kind = none) ∧
    (∀ n, numericMessageId messageId = some n → 0 ≤ n →
      handleFeedback messageId kind = some
        { message_id := n,
          rating := match kind with
            | FeedbackKind.positive => 5
            | FeedbackKind.negative => 1,
          comment := match kind with
            | FeedbackKind.positive => positiveComment
            | FeedbackKind.negative => negativeComment }) := by
  constructor
  · intro h
    unfold handleFeedback
    rcases h with h | ⟨n, hn, hneg⟩
    · rw [h]
    · rw [hn]
      simp [hneg]
  · intro n hn hpos
    unfold handleFeedback
    rw [hn]
    simp [not_lt.mpr hpos]

/-- C8, witness: the string id `-1` is rejected without a call; the numeric
id 7 yields one negative-feedback request with rating 1. -/
theorem feedback_validation_witness :
    handleFeedback (MessageIdProp.str ("-1".data)) FeedbackKind.positive = none ∧
    handleFeedback (MessageIdProp.num 7) FeedbackKind.negative =
      some { message_id := 7, rating := 1, comment := negativeComment } :=
  ⟨(feedback_validation (MessageIdProp.str ("-1".data)) FeedbackKind.positive).1
      (Or.inr ⟨-1, by decide, by decide⟩),
   (feedback_validation (MessageIdProp.num 7) FeedbackKind.negative).2 7 rfl
      (by decide)⟩

/-- C9: in both storage variants, initializing twice leaves the same stored
collection as initializing once, and an already-present collection is left
untouched. -/
theorem incidentStorage_init_idempotent (defaults : List AppIncident) (st : Storage) :
    StorageSer.initializeIncidentStorage defaults
        (StorageSer.initializeIncidentStorage defaults st) =
      StorageSer.initializeIncidentStorage defaults st ∧
    StoragePlain.initializeIncidentStorage defaults
        (StoragePlain.initializeIncidentStorage defaults st) =
      StoragePlain.initializeIncidentStorage defaults st ∧
    (∀ v, st = some v →
      StorageSer.initializeIncidentStorage defaults st = st ∧
      StoragePlain.initializeIncidentStorage defaults st = st) := by
  cases st with
  | none =>
    refine ⟨rfl, rfl, ?_⟩
    intro v h
    cases h
  | some v =>
    exact ⟨rfl, rfl, fun _ _ => ⟨rfl, rfl⟩⟩

/-- C9, witness: a populated slot is left untouched. -/
theorem incidentStorage_init_idempotent_witness :
    StorageSer.initializeIncidentStorage [] (some Json.jnull) = some Json.jnull ∧
    StoragePlain.initializeIncidentStorage [] (some Json.jnull) = some Json.jnull :=
  (incidentStorage_init_idempotent [] (some Json.jnull)).2.2 Json.jnull rfl

/-- Well-formedness of an in-memory collection per the data model of the spec:
the display metadata of each record is exactly what the id lookup against
the static default list resolves (in particular, records with unknown ids
carry none). -/
def iconConsistent (defaults incidents : List AppIncident) : Prop :=
  ∀ x ∈ incidents, x.icon = defaultIconFor defaults x.id

instance (defaults incidents : List AppIncident) :
    Decidable (iconConsistent defaults incidents) := by
  unfold iconConsistent
  infer_instance

lemma idKey_ne_nameKey : idKey ≠ nameKey := by decide

lemma idKey_ne_statusKey : idKey ≠ statusKey := by decide

lemma nameKey_ne_statusKey : nameKey ≠ statusKey := by decide

lemma decode_encode_ser (defaults : List AppIncident) (x : AppIncident) :
    StorageSer.decodeStoredIncident defaults (StorageSer.encodeStoredIncident x) =
      some { x with icon := defaultIconFor defaults x.id } := by
  simp [StorageSer.decodeStoredIncident, StorageSer.encodeStoredIncident,
    jlookup, asJstr, idKey_ne_nameKey, idKey_ne_statusKey, nameKey_ne_statusKey,
    Ne.symm idKey_ne_nameKey, Ne.symm idKey_ne_statusKey,
    Ne.symm nameKey_ne_statusKey]

lemma mapM_decode_encode_ser (defaults : List AppIncident) :
    ∀ X : List AppIncident, iconConsistent defaults X →
    (X.map StorageSer.encodeStoredIncident).mapM
        (StorageSer.decodeStoredIncident defaults) = some X := by
  intro X
  induction X with
  | nil => intro _; rfl
  | cons x xs ih =>
    intro h
    have hx : x.icon = defaultIconFor defaults x.id := h x (by simp)
    have hxs : iconConsistent defaults xs := fun y hy => h y (by simp [hy])
    simp only [List.map_cons, List.mapM_cons, decode_encode_ser, ih hxs]
    rw [← hx]
    rfl

/-- Round trip of the serializing variant: saving a well-formed collection
and loading it back restores it exactly. -/
lemma loadSave_ser (defaults X : List AppIncident) (st : Storage)
    (h : iconConsistent defaults X) :
    StorageSer.loadIncidentsFromStorage defaults
      (StorageSer.saveIncidentsToStorage X st) = X := by
  simp only [StorageSer.saveIncidentsToStorage,
    StorageSer.loadIncidentsFromStorage]
  rw [mapM_decode_encode_ser defaults X h]

lemma decode_encode_plain (x : AppIncident) (hx : x.icon = none) :
    StoragePlain.decodeIncident (StoragePlain.encodeIncident x) = some x := by
  rw [StoragePlain.encodeIncident, hx]
  simp [StoragePlain.decodeIncident, jlookup, asJstr, idKey_ne_nameKey,
    idKey_ne_statusKey, nameKey_ne_statusKey, Ne.symm idKey_ne_nameKey,
    Ne.symm idKey_ne_statusKey, Ne.symm nameKey_ne_statusKey, ← hx]

lemma loadSave_plain (defaults X : List AppIncident) (st : Storage)
    (h : ∀ x ∈ X, x.icon = none) :
    StoragePlain.loadIncidentsFromStorage defaults
      (StoragePlain.saveIncidentsToStorage X st) = X := by
  have hmm : ∀ Y : List AppIncident, (∀ x ∈ Y, x.icon = none) →
      (Y.map StoragePlain.encodeIncident).mapM StoragePlain.decodeIncident =
        some Y := by
    intro Y
    induction Y with
    | nil => intro _; rfl
    | cons y ys ih =>
      intro hy
      simp only [List.map_cons, List.mapM_cons,
        decode_encode_plain y (hy y (by simp)), ih (fun z hz => hy z (by simp [hz]))]
      rfl
  simp only [StoragePlain.saveIncidentsToStorage,
    StoragePlain.loadIncidentsFromStorage]
  rw [hmm X h]

/-- C6: `load(save(X)) = X` for every well-formed collection `X`, in both
storage variants: the serializing variant restores every collection whose
icon metadata agrees with the default-list lookup, and the plain variant
restores every collection of bare (metadata-free) records. -/
theorem incidents_roundtrip (defaults X : List AppIncident) (st : Storage) :
    (iconConsistent defaults X →
      StorageSer.loadIncidentsFromStorage defaults
        (StorageSer.saveIncidentsToStorage X st) = X) ∧
    ((∀ x ∈ X, x.icon = none) →
      StoragePlain.loadIncidentsFromStorage defaults
        (StoragePlain.saveIncidentsToStorage X st) = X) :=
  ⟨loadSave_ser defaults X st, loadSave_plain defaults X st⟩

/-- The default list used in concrete instantiations. -/
def demoDefaults : List AppIncident :=
  [{ id := "artis".data, name := "Artis".data, status := "ok".data,
     icon := some 0 },
   { id := "sas".data, name := "SAS".data, status := "ok".data,
     icon := some 1 }]

/-- The SAS record marked as an incident. -/
def demoSas : AppIncident :=
  { id := "sas".data, name := "SAS".data, status := "incident".data,
    icon := some 1 }

/-- A collection in which the admin marked SAS as an incident. -/
def demoCollection : List AppIncident :=
  [{ id := "artis".data, name := "Artis".data, status := "ok".data,
     icon := some 0 },
   demoSas]

/-- C6, witness: the marked collection survives a save/load round trip. -/
theorem incidents_roundtrip_witness :
    StorageSer.loadIncidentsFromStorage demoDefaults
      (StorageSer.saveIncidentsToStorage demoCollection none) = demoCollection ∧
    StoragePlain.loadIncidentsFromStorage demoDefaults
      (StoragePlain.saveIncidentsToStorage
        [{ id := "sas".data, name := "SAS".data, status := "incident".data,
           icon := none }] none) =
      [{ id := "sas".data, name := "SAS".data, status := "incident".data,
         icon := none }] :=
  ⟨(incidents_roundtrip demoDefaults demoCollection none).1 (by decide),
   (incidents_roundtrip demoDefaults
      [{ id := "sas".data, name := "SAS".data, status := "incident".data,
         icon := none }] none).2 (by decide)⟩

/-- C7: applying incident changes persists the full collection, dispatches
one change notification, and a listening ticker that handles it reloads
exactly the saved collection, so every newly marked incident appears in its
active list without a reload. -/
theorem incident_update_propagates (defaults : List AppIncident)
    (w : IncidentWorld) (updated : List AppIncident)
    (h : iconConsistent defaults updated) :
    (handleIncidentStatusChange w updated).storage =
      StorageSer.saveIncidentsToStorage updated w.storage ∧
    (handleIncidentStatusChange w updated).pendingNotifications =
      w.pendingNotifications + 1 ∧
    (tickerOnIncidentUpdate defaults
        (handleIncidentStatusChange w updated)).tickerIncidents = updated ∧
    (∀ app ∈ updated, app.status = incidentStatusVal →
      app ∈ activeIncidents (tickerOnIncidentUpdate defaults
        (handleIncidentStatusChange w updated)).tickerIncidents) := by
  have hload : (tickerOnIncidentUpdate defaults
      (handleIncidentStatusChange w updated)).tickerIncidents = updated := by
    simp [tickerOnIncidentUpdate, handleIncidentStatusChange,
      loadSave_ser defaults updated w.storage h]
  refine ⟨rfl, rfl, hload, ?_⟩
  intro app hmem hstatus
  rw [hload]
  simp [activeIncidents, List.mem_filter, hmem, hstatus]

/-- C7, witness: marking SAS as an incident in the admin view makes SAS
appear in the active ticker of the second view after one notification. -/
theorem incident_update_propagates_witness :
    (tickerOnIncidentUpdate demoDefaults
      (handleIncidentStatusChange
        { storage := none, adminIncidents := demoDefaults,
          tickerIncidents := demoDefaults, pendingNotifications := 0 }
        demoCollection)).tickerIncidents = demoCollection ∧
    demoSas ∈ activeIncidents (tickerOnIncidentUpdate demoDefaults
      (handleIncidentStatusChange
        { storage := none, adminIncidents := demoDefaults,
          tickerIncidents := demoDefaults, pendingNotifications := 0 }
        demoCollection)).tickerIncidents :=
  ⟨(incident_update_propagates demoDefaults
      { storage := none, adminIncidents := demoDefaults,
        tickerIncidents := demoDefaults, pendingNotifications := 0 }
      demoCollection (by decide)).2.2.1,
   (incident_update_propagates demoDefaults
      { storage := none, adminIncidents := demoDefaults,
        tickerIncidents := demoDefaults, pendingNotifications := 0 }
      demoCollection (by decide)).2.2.2 demoSas (by decide) (by decide)⟩

/-- C1: on a multi-part response the handler appends the parts as separate
assistant messages in array order after the user message; the user-visible
event sequence is exactly append, wait, append, ..., append with one
randomized wait strictly between consecutive parts; every wait lies in
[500, 1000) milliseconds; and `isLastInSequence` is `some true` exactly on
the last part. -/
theorem multiPart_sequencing (s : ChatState) (content : Str)
    (resp : ChatResponse) (rng : ℕ → ℚ)
    (hp : 1 < resp.message_parts.length)
    (hrng : ∀ j, 0 ≤ rng j ∧ rng j < 1) :
    (runEvents s (handleSendMessage content (Except.ok resp) rng)).messages =
      s.messages ++ userMsg content ::
        partMsgsFrom resp.message_parts resp.message_id 0 ∧
    partMsgsFrom resp.message_parts resp.message_id 0 =
      (List.range' 0 resp.message_parts.length).map
        (expectedPartMessage resp.message_parts resp.message_id) ∧
    (handleSendMessage content (Except.ok resp) rng).filter isPartEvent =
      expectedPartsTrace resp.message_parts resp.message_id rng 0 ∧
    (∀ d, ChatEvent.delay d ∈ handleSendMessage content (Except.ok resp) rng →
      500 ≤ d ∧ d < 1000) ∧
    (∀ i, i < resp.message_parts.length →
      ((expectedPartMessage resp.message_parts resp.message_id i).isLastInSequence
        = some true ↔ i = resp.message_parts.length - 1)) := by
  refine ⟨handleSendMessage_multi_messages s content resp rng hp, ?_, ?_, ?_, ?_⟩
  · have h := partMsgsFrom_eq_range resp.message_parts resp.message_id
      resp.message_parts.length 0 (by omega)
    simpa using h
  · rw [handleSendMessage_ok_shape, List.filter_append, List.filter_append,
      if_pos hp,
      addMessageWithDelay_filter resp.message_parts resp.message_id rng
        resp.message_parts.length 0 (by omega)]
    simp [isPartEvent, userMsg]
  · intro d hd
    rw [handleSendMessage_ok_shape, if_pos hp] at hd
    simp at hd
    obtain ⟨j, hj⟩ := addMessageWithDelay_delay_mem resp.message_parts
      resp.message_id rng resp.message_parts.length 0 d (by omega) hd
    subst hj
    constructor
    · nlinarith [(hrng j).1, (hrng j).2]
    · nlinarith [(hrng j).1, (hrng j).2]
  · intro i hi
    simp [expectedPartMessage]

/-- A mocked two-part response. -/
def twoPartResp : ChatResponse :=
  { answer := "Partie 1 Partie 2".data, files_used := [],
    message_parts := ["Partie 1".data, "Partie 2".data], message_id := some 42 }

/-- C1, witness: the mocked two-part response yields the user message
followed by the two part messages. -/
theorem multiPart_sequencing_witness :
    (runEvents chatState0 (handleSendMessage ("question".data)
        (Except.ok twoPartResp) (fun _ => 1/2))).messages =
      chatState0.messages ++ userMsg ("question".data) ::
        partMsgsFrom twoPartResp.message_parts twoPartResp.message_id 0 :=
  (multiPart_sequencing chatState0 ("question".data) twoPartResp (fun _ => 1/2)
    (by decide) (fun _ => ⟨by norm_num, by norm_num⟩)).1

/-- C2: whatever the backend outcome, when the invocation completes the
loading indicator is gone, the loading flag is cleared and focus is
requested; on failure the history gains exactly the optimistic user
message. -/
theorem sendMessage_cleanup (s : ChatState) (content : Str)
    (result : Except Str ChatResponse) (rng : ℕ → ℚ) :
    (runEvents s (handleSendMessage content result rng)).loadingMessage = none ∧
    (runEvents s (handleSendMessage content result rng)).loading = false ∧
    (runEvents s (handleSendMessage content result rng)).focusRequested = true ∧
    (∀ e, result = Except.error e →
      (runEvents s (handleSendMessage content result rng)).messages =
        s.messages ++ [userMsg content]) := by
  cases result with
  | ok resp =>
    obtain ⟨h1, h2, h3, _⟩ := handleSendMessage_run_ok s content resp rng
    exact ⟨h1, h2, h3, fun e he => nomatch he⟩
  | error e0 =>
    rw [handleSendMessage_run_error]
    exact ⟨rfl, rfl, rfl, fun e _ => rfl⟩

/-- C2, witness: a failed send leaves exactly the user message appended. -/
theorem sendMessage_cleanup_witness :
    (runEvents chatState0 (handleSendMessage ("Bonjour".data)
        (Except.error ("panne".data)) (fun _ => 0))).messages =
      chatState0.messages ++ [userMsg ("Bonjour".data)] :=
  (sendMessage_cleanup chatState0 ("Bonjour".data)
      (Except.error ("panne".data)) (fun _ => 0)).2.2.2 ("panne".data) rfl

/-- C3, counterexample: on a failing backend call the trace contains no
trending refresh at all, contradicting the claim that a refresh is
triggered regardless of the outcome. -/
theorem trendingRefresh_missing_on_failure :
    ChatEvent.trendingRefresh ∉
      handleSendMessage ("salut".data) (Except.error ("panne".data))
        (fun _ => 0) := by
  simp [handleSendMessage]

/-- C3, amended: the trending refresh is triggered exactly once when the
backend call succeeds and not at all when it fails (the call sits inside
the `try` block, before the `catch`); focus, by contrast, is restored
regardless of outcome. -/
theorem trending_refresh_on_success_only (s : ChatState) (content : Str)
    (rng : ℕ → ℚ) :
    (∀ resp, (runEvents s (handleSendMessage content (Except.ok resp)
        rng)).trendingRefreshes = s.trendingRefreshes + 1) ∧
    (∀ e, (runEvents s (handleSendMessage content (Except.error e)
        rng)).trendingRefreshes = s.trendingRefreshes) ∧
    (∀ result, (runEvents s (handleSendMessage content result
        rng)).focusRequested = true) := by
  refine ⟨fun resp => (handleSendMessage_run_ok s content resp rng).2.2.2,
    fun e => ?_, fun result => ?_⟩
  · rw [handleSendMessage_run_error]
  · cases result with
    | ok resp => exact (handleSendMessage_run_ok s content resp rng).2.2.1
    | error e => rw [handleSendMessage_run_error]

/-- The fragments a response is displayed as, after the single
left-to-right delimiter-removal pass each branch applies. -/
def expectedStrippedContents : Except Str ChatResponse → List Str
  | Except.error _ => []
  | Except.ok resp =>
    if resp.message_parts.length > 1 then
      resp.message_parts.map (stripOcc delim)
    else
      stripOcc delim (splitOnSub docMarker resp.answer).headI ::
      (if containsSub docMarker resp.answer then
        [docMarkerHead ++
          stripOcc delim ((splitOnSub docMarker resp.answer).getD 1 [])]
      else [])

/-- C10, amended: every non-transient assistant message the handler appends
carries exactly the corresponding backend fragment after one left-to-right
global-replace pass removing `%%PARTIE%%` (with the fixed documents prefix
where applicable), and the only transient assistant message ever appended
is the constant document-search indicator.  The pass removes the matches it
finds, but the spliced remainder may itself spell out the delimiter again,
so the delimiter can still be displayed (see the counterexample). -/
theorem assistant_contents_stripped (content : Str)
    (result : Except Str ChatResponse) (rng : ℕ → ℚ) :
    appendedAssistantContents (handleSendMessage content result rng) =
      expectedStrippedContents result ∧
    (∀ m, ChatEvent.appended m ∈ handleSendMessage content result rng →
      m.isLoading = true → m.content = docsLoadingMsg.content) := by
  cases result with
  | error e =>
    constructor
    · simp [handleSendMessage, appendedAssistantContents, userMsg,
        expectedStrippedContents]
    · intro m hm htrue
      simp [handleSendMessage] at hm
      subst hm
      simp [userMsg] at htrue
  | ok resp =>
    constructor
    · rw [handleSendMessage_ok_shape]
      simp only [appendedAssistantContents, List.filterMap_append]
      by_cases hp : resp.message_parts.length > 1
      · rw [if_pos hp]
        have hc := addMessageWithDelay_contents resp.message_parts
          resp.message_id rng resp.message_parts.length 0 (by omega)
        simp only [appendedAssistantContents] at hc
        rw [hc]
        simp [expectedStrippedContents, hp, userMsg]
      · rw [if_neg hp]
        have hc := singleBranchEvents_contents resp
        simp only [appendedAssistantContents] at hc
        rw [hc]
        simp [expectedStrippedContents, hp, userMsg]
    · intro m hm htrue
      rw [handleSendMessage_ok_shape] at hm
      simp at hm
      rcases hm with hm | hm
      · subst hm
        simp [userMsg] at htrue
      · by_cases hp : resp.message_parts.length > 1
        · rw [if_pos hp] at hm
          have hfalse := (addMessageWithDelay_appended_mem resp.message_parts
            resp.message_id rng resp.message_parts.length 0 m (by omega) hm).1
          rw [hfalse] at htrue
          cases htrue
        · rw [if_neg hp] at hm
          by_cases hc : containsSub docMarker resp.answer
          · simp [singleBranchEvents, hc, docMarkerHead_ne_nil] at hm
            rcases hm with hm | hm | hm
            · subst hm
              simp at htrue
            · subst hm
              rfl
            · subst hm
              simp at htrue
          · simp [singleBranchEvents, hc] at hm
            subst hm
            simp at htrue

/-- C10, counterexample: the single global-replace pass applied to the
answer `%%PAR%%PARTIE%%TIE%%` splices its remainder into a new
`%%PARTIE%%`, and the handler appends exactly that delimiter as the
assistant message content, so the delimiter is displayed. -/
theorem delimiter_survives_counterexample :
    stripOcc delim ("%%PAR%%PARTIE%%TIE%%".data) = delim ∧
    appendedAssistantContents
      (handleSendMessage ("q".data)
        (Except.ok { answer := "%%PAR%%PARTIE%%TIE%%".data, files_used := [],
                     message_parts := [], message_id := none })
        (fun _ => 0)) = [delim] ∧
    containsSub delim (stripOcc delim ("%%PAR%%PARTIE%%TIE%%".data)) = true := by
  refine ⟨by decide, by decide, by decide⟩
